import Mathlib

/-!
Shallow embedding of `src/hw_registers/src/hw_registers.c` (the
hardware-module detector driver) together with theorems checking the
natural-language specification against it.

Modelling conventions:
* Machine `u32` values are `Nat` with `% 2 ^ 32` where the C type forces
  truncation (`readl` returns `u32`).
* Kernel error codes are `Int` return values (`-12` = `-ENOMEM`,
  `-22` = `-EINVAL`), exactly as the C functions return them.
* The sysfs surface is a `SysfsState`: whether the aggregate
  `module_bits` file is published, which per-bit files are published,
  which entries of the static array `module_present_attrs[32]` hold a
  non-NULL pointer, and `live`, the number of heap objects
  (`kzalloc`ed attributes plus `kstrdup`ed names) not yet `kfree`d.
* A ghost `log` records the observable events the spec constrains the
  order of: 32-bit register reads (`readl`) and successful attribute
  file creations (`device_create_file`).
* Fallible external calls (`kzalloc`, `kstrdup`, `device_create_file`,
  `class_create`, `device_create`, `platform_get_resource`,
  `devm_ioremap_resource`) are driven by explicit failure environments
  (`FailSpec`, `ProbeEnv`) so every error path of the C code is a
  reachable branch of the model.
-/

namespace HwRegisters

/-- Observable events: a 32-bit register read and a successful
attribute-file creation, in program order. -/
inductive Event where
  | regRead (v : Nat)
  | mkFile (fname : String)
  deriving DecidableEq, Repr

/-- State of the sysfs surface plus the static
`module_present_attrs[32]` array and a heap-liveness counter. -/
structure SysfsState where
  aggFile : Bool
  bitFile : Nat → Bool
  slot : Nat → Bool
  live : Nat
  log : List Event

/-- Failure environment for `create_module_sysfs_files`: result of
`device_create_file` for `dev_attr_module_bits`, and per-index results
of `kzalloc`, `kstrdup` and `device_create_file`. `0` means success. -/
structure FailSpec where
  aggErr : Int
  kzallocFail : Nat → Bool
  kstrdupFail : Nat → Bool
  createErr : Nat → Int

/-- Name of the per-bit attribute: `snprintf(name, 20, "module_%d", i)`. -/
def bitName (i : Nat) : String := "module_" ++ toString i

/-- The `err_cleanup` loop of `create_module_sysfs_files` (lines
141-148): for each index with a non-NULL slot, `device_remove_file`
then `kfree` the name and the attribute. The C code does NOT write
`NULL` back into `module_present_attrs[i]` here, so `slot` is left
unchanged. `fuel` counts the remaining iterations; the loop is entered
with `fuel = 32, i = 0`. -/
def errCleanupLoop : Nat → Nat → SysfsState → SysfsState
  | 0, _, s => s
  | fuel + 1, i, s =>
    if s.slot i then
      errCleanupLoop fuel (i + 1)
        { s with bitFile := Function.update s.bitFile i false, live := s.live - 2 }
    else
      errCleanupLoop fuel (i + 1) s

/-- `err_cleanup` (lines 141-150): the loop above followed by
`device_remove_file(dev, &dev_attr_module_bits)`. -/
def errCleanup (s : SysfsState) : SysfsState :=
  let t := errCleanupLoop 32 0 s
  { t with aggFile := false }

/-- The `for (i = 0; i < 32; i++)` body of `create_module_sysfs_files`
(lines 111-137). On `kzalloc` failure the slot was never written; on
`kstrdup` failure the attribute is freed and the slot reset to NULL; on
`device_create_file` failure name and attribute are freed and the slot
reset to NULL; each failure jumps to `err_cleanup`. On success the slot
holds the attribute and the file is published. Entered with
`fuel = 32, i = 0`. -/
def createLoop (f : FailSpec) : Nat → Nat → SysfsState → Int × SysfsState
  | 0, _, s => (0, s)
  | fuel + 1, i, s =>
    if f.kzallocFail i then
      (-12, errCleanup s)
    else
      let s1 : SysfsState :=
        { s with slot := Function.update s.slot i true, live := s.live + 1 }
      if f.kstrdupFail i then
        (-12, errCleanup
          { s1 with slot := Function.update s1.slot i false, live := s1.live - 1 })
      else
        let s2 : SysfsState := { s1 with live := s1.live + 1 }
        if f.createErr i ≠ 0 then
          (f.createErr i, errCleanup
            { s2 with slot := Function.update s2.slot i false, live := s2.live - 2 })
        else
          createLoop f fuel (i + 1)
            { s2 with bitFile := Function.update s2.bitFile i true,
                      log := s2.log ++ [Event.mkFile (bitName i)] }

/-- `create_module_sysfs_files` (lines 102-151): publish the aggregate
`module_bits` attribute, then the 32 per-bit attributes in ascending
order, rolling back through `err_cleanup` on any failure. -/
def create_module_sysfs_files (f : FailSpec) (s : SysfsState) : Int × SysfsState :=
  if f.aggErr ≠ 0 then
    (f.aggErr, s)
  else
    createLoop f 32 0
      { s with aggFile := true, log := s.log ++ [Event.mkFile "module_bits"] }

/-- The loop of `remove_module_sysfs_files` (lines 157-164): for each
non-NULL slot, remove the file, free name and attribute, and write
`NULL` back into the array. Entered with `fuel = 32, i = 0`. -/
def removeLoop : Nat → Nat → SysfsState → SysfsState
  | 0, _, s => s
  | fuel + 1, i, s =>
    if s.slot i then
      removeLoop fuel (i + 1)
        { s with bitFile := Function.update s.bitFile i false,
                 slot := Function.update s.slot i false,
                 live := s.live - 2 }
    else
      removeLoop fuel (i + 1) s

/-- `remove_module_sysfs_files` (lines 153-167): the loop above, then
`device_remove_file(dev, &dev_attr_module_bits)`. -/
def remove_module_sysfs_files (s : SysfsState) : SysfsState :=
  let t := removeLoop 32 0 s
  { t with aggFile := false }

/-- The `struct hw_module_detector` fields the queries observe: the
cached `module_bits` snapshot. -/
structure Detector where
  module_bits : Nat
  deriving DecidableEq, Repr

/-- Process-wide state: the `hw_detector` singleton, the platform
drvdata pointer, whether the sysfs class and device exist, and the
sysfs surface. -/
structure GlobalState where
  hw_detector : Option Detector
  drvdata : Option Detector
  classLive : Bool
  deviceLive : Bool
  sysfs : SysfsState

/-- `hw_module_present` (lines 48-54): false when the singleton is NULL
or the bit index is 32 or more, else bit `module_bit` of the cached
mask. -/
def hw_module_present (g : GlobalState) (module_bit : Nat) : Bool :=
  match g.hw_detector with
  | none => false
  | some d => if 32 ≤ module_bit then false else d.module_bits.testBit module_bit

/-- `hw_get_module_mask` (lines 62-68): `0` when the singleton is NULL,
else the cached mask. -/
def hw_get_module_mask (g : GlobalState) : Nat :=
  match g.hw_detector with
  | none => 0
  | some d => d.module_bits

/-- One lowercase hexadecimal digit, as `sprintf %x` renders it:
`0`..`9` then `a`..`f`. -/
def hexChar (n : Nat) : Char :=
  if n < 10 then Char.ofNat (48 + n) else Char.ofNat (87 + n)

/-- The low `d` hexadecimal digits of `n`, most significant first:
the zero-padded field `sprintf %08x` produces when `d = 8`. -/
def hexDigits : Nat → Nat → List Char
  | 0, _ => []
  | d + 1, n => hexDigits d (n / 16) ++ [hexChar (n % 16)]

/-- `sprintf(buf, "0x%08x\n", n)` for a `u32` value `n`. -/
def hex8Line (n : Nat) : String := "0x" ++ String.mk (hexDigits 8 n) ++ "\n"

/-- `module_bits_show` (lines 72-79): `-EINVAL` when the singleton is
NULL, else the `0x%08x\n` rendering of the cached mask. -/
def module_bits_show (g : GlobalState) : Except Int String :=
  match g.hw_detector with
  | none => .error (-22)
  | some d => .ok (hex8Line d.module_bits)

/-- Accumulator loop of `kstrtouint` over a decimal digit string. -/
def kstrtouintAux : List Char → Nat → Option Nat
  | [], acc => some acc
  | c :: cs, acc =>
    if c.isDigit then kstrtouintAux cs (10 * acc + (c.toNat - 48)) else none

/-- `kstrtouint(s, 10, &out)` on the strings this driver feeds it: the
empty string and any non-digit character fail, as does a value that
does not fit in `unsigned int`. -/
def kstrtouint (s : String) : Option Nat :=
  match s.data with
  | [] => none
  | c :: cs =>
    (kstrtouintAux (c :: cs) 0).bind fun n => if n < 2 ^ 32 then some n else none

/-- `module_present_show` (lines 81-95): `-EINVAL` when the singleton
is NULL; parse the attribute's own name past the 7 characters of
`"module_"` to recover the bit index; `-EINVAL` when parsing fails or
the index is 32 or more; else `"1\n"` or `"0\n"` per
`hw_module_present`. -/
def module_present_show (g : GlobalState) (attrName : String) : Except Int String :=
  match g.hw_detector with
  | none => .error (-22)
  | some _ =>
    match kstrtouint (attrName.drop 7) with
    | none => .error (-22)
    | some bit =>
      if 32 ≤ bit then .error (-22)
      else .ok (if hw_module_present g bit then "1\n" else "0\n")

/-- Failure environment for `hw_module_detector_probe`: `devm_kzalloc`,
`platform_get_resource`, `devm_ioremap_resource`, `class_create`,
`device_create`, and the attribute-file environment. `0` / `false`
means the corresponding call succeeds. -/
structure ProbeEnv where
  kallocFail : Bool
  resMissing : Bool
  ioremapErr : Int
  classErr : Int
  deviceErr : Int
  files : FailSpec

/-- `hw_module_detector_probe` (lines 176-236). `reg` is the register
history (`reg t` = the hardware register's value at time `t`); the
probe performs its single `readl` at time `0`, so only `reg 0` can
influence it. Error paths unwind exactly as the C `goto` chain does:
`device_create` failure destroys the class; `create_module_sysfs_files`
failure destroys device then class. The singleton is written only after
every step succeeded. -/
def hw_module_detector_probe (e : ProbeEnv) (reg : Nat → Nat) (g : GlobalState) :
    Int × GlobalState :=
  if e.kallocFail then (-12, g)
  else if e.resMissing then (-22, g)
  else if e.ioremapErr ≠ 0 then (e.ioremapErr, g)
  else
    let bits := reg 0 % 2 ^ 32
    let g1 : GlobalState :=
      { g with sysfs := { g.sysfs with log := g.sysfs.log ++ [Event.regRead bits] } }
    if e.classErr ≠ 0 then (e.classErr, g1)
    else
      let g2 : GlobalState := { g1 with classLive := true }
      if e.deviceErr ≠ 0 then (e.deviceErr, { g2 with classLive := false })
      else
        let g3 : GlobalState := { g2 with deviceLive := true }
        let r := create_module_sysfs_files e.files g3.sysfs
        if r.1 ≠ 0 then
          (r.1, { g3 with sysfs := r.2, deviceLive := false, classLive := false })
        else
          (0, { g3 with sysfs := r.2,
                        hw_detector := some ⟨bits⟩, drvdata := some ⟨bits⟩ })

/-- `hw_module_detector_remove` (lines 238-250): when drvdata is
non-NULL, remove the attribute files, destroy device and class; in
every case set `hw_detector = NULL` and return `0`. drvdata itself is
not cleared by this function. -/
def hw_module_detector_remove (g : GlobalState) : Int × GlobalState :=
  match g.drvdata with
  | some _ =>
    (0, { g with sysfs := remove_module_sysfs_files g.sysfs,
                 deviceLive := false, classLive := false, hw_detector := none })
  | none => (0, { g with hw_detector := none })

/-- The sysfs surface before the module ever ran: no files, the static
array `module_present_attrs` zero-initialised, nothing allocated. -/
def initSysfs : SysfsState :=
  { aggFile := false, bitFile := fun _ => false, slot := fun _ => false,
    live := 0, log := [] }

/-- Process state before any probe: no singleton, no drvdata, no class,
no device. -/
def initState : GlobalState :=
  { hw_detector := none, drvdata := none, classLive := false,
    deviceLive := false, sysfs := initSysfs }

/-- Environment in which every fallible call succeeds. -/
def noFail : FailSpec :=
  { aggErr := 0, kzallocFail := fun _ => false, kstrdupFail := fun _ => false,
    createErr := fun _ => 0 }

/-- Probe environment in which every fallible call succeeds. -/
def happyEnv : ProbeEnv :=
  { kallocFail := false, resMissing := false, ioremapErr := 0, classErr := 0,
    deviceErr := 0, files := noFail }

/-- No attribute is published and no attribute heap object is live:
the aggregate file is absent, every per-bit file in range is absent,
and every allocation has been freed. -/
def fileClean (s : SysfsState) : Prop :=
  s.aggFile = false ∧ (∀ j, j < 32 → s.bitFile j = false) ∧ s.live = 0

/-- Loop invariant of the publish loop on entry to iteration `i` from a
clean start: aggregate published, per-bit files and slots filled
exactly below `i`, two live heap objects per published bit. -/
def stageInv (i : Nat) (s : SysfsState) : Prop :=
  s.aggFile = true ∧ (∀ j, s.bitFile j = decide (j < i)) ∧
    (∀ j, s.slot j = decide (j < i)) ∧ s.live = 2 * i

/-- How many of the `fuel` indices starting at `p` the predicate holds
on: the number of loop iterations that take the non-NULL branch. -/
def countTrue : Nat → Nat → (Nat → Bool) → Nat
  | _, 0, _ => 0
  | p, fuel + 1, f => (if f p then 1 else 0) + countTrue (p + 1) fuel f

/-- Decimal value of one lowercase hexadecimal digit character: the
decoder used to state the round-trip property of the `%08x` field. -/
def hexCharVal (c : Char) : Nat :=
  if c.toNat ≤ 57 then c.toNat - 48 else c.toNat - 87

/-- Event log of a fully successful probe that read register value
`v`: one register read, then the aggregate file, then the 32 per-bit
files in ascending order. -/
def happyLog (v : Nat) : List Event :=
  Event.regRead (v % 2 ^ 32) :: Event.mkFile "module_bits" ::
    (List.range 32).map fun i => Event.mkFile (bitName i)

/-- Failure environment whose only failing call is the `kzalloc` at
index 5. -/
def kzallocFailAt5 : FailSpec :=
  { aggErr := 0, kzallocFail := fun i => i == 5, kstrdupFail := fun _ => false,
    createErr := fun _ => 0 }

/-- Failure environment whose only failing call is the `kzalloc` at
index 1: the attribute for bit 0 is published and then rolled back. -/
def kzallocFailAt1 : FailSpec :=
  { aggErr := 0, kzallocFail := fun i => i == 1, kstrdupFail := fun _ => false,
    createErr := fun _ => 0 }

/-- Probe environment whose `class_create` fails with `-5`. -/
def classFailEnv : ProbeEnv :=
  { happyEnv with classErr := -5 }

/-- A state attached with mask `0x2a`, as in the spec's end-to-end
example. -/
def attached42 : GlobalState :=
  { initState with hw_detector := some ⟨42⟩, drvdata := some ⟨42⟩ }


theorem errCleanupLoop_spec (fuel : Nat) : ∀ p s,
    (errCleanupLoop fuel p s).aggFile = s.aggFile ∧
    (errCleanupLoop fuel p s).slot = s.slot ∧
    (errCleanupLoop fuel p s).log = s.log ∧
    (∀ j, (errCleanupLoop fuel p s).bitFile j =
      if p ≤ j ∧ j < p + fuel ∧ s.slot j = true then false else s.bitFile j) ∧
    (errCleanupLoop fuel p s).live = s.live - 2 * countTrue p fuel s.slot := by
  induction fuel with
  | zero =>
    intro p s
    refine ⟨rfl, rfl, rfl, ?_, by simp [errCleanupLoop, countTrue]⟩
    intro j
    show s.bitFile j = _
    rw [if_neg (by rintro ⟨h1, h2, -⟩; omega)]
  | succ fuel ih =>
    intro p s
    simp only [errCleanupLoop]
    by_cases h : s.slot p = true
    · rw [if_pos h]
      obtain ⟨ha, hs, hl, hb, hv⟩ := ih (p + 1)
        { s with bitFile := Function.update s.bitFile p false, live := s.live - 2 }
      refine ⟨ha, hs, hl, ?_, ?_⟩
      · intro j
        refine (hb j).trans ?_
        show (if p + 1 ≤ j ∧ j < p + 1 + fuel ∧ s.slot j = true then false
              else Function.update s.bitFile p false j) = _
        simp only [Function.update_apply]
        by_cases hj : j = p
        · subst hj
          rw [if_neg (by rintro ⟨h1, -, -⟩; omega), if_pos rfl,
              if_pos ⟨Nat.le_refl j, by omega, h⟩]
        · rw [if_neg hj]
          by_cases h1 : p + 1 ≤ j ∧ j < p + 1 + fuel ∧ s.slot j = true
          · rw [if_pos h1, if_pos ⟨by omega, by omega, h1.2.2⟩]
          · rw [if_neg h1, if_neg]
            rintro ⟨hc1, hc2, hc3⟩
            exact h1 ⟨by omega, by omega, hc3⟩
      · refine hv.trans ?_
        show s.live - 2 - 2 * countTrue (p + 1) fuel s.slot =
          s.live - 2 * countTrue p (fuel + 1) s.slot
        simp only [countTrue]
        rw [if_pos h]
        omega
    · rw [if_neg h]
      obtain ⟨ha, hs, hl, hb, hv⟩ := ih (p + 1) s
      refine ⟨ha, hs, hl, ?_, ?_⟩
      · intro j
        refine (hb j).trans ?_
        by_cases h1 : p + 1 ≤ j ∧ j < p + 1 + fuel ∧ s.slot j = true
        · rw [if_pos h1, if_pos ⟨by omega, by omega, h1.2.2⟩]
        · rw [if_neg h1, if_neg]
          rintro ⟨hc1, hc2, hc3⟩
          refine h1 ⟨?_, by omega, hc3⟩
          rcases Nat.eq_or_lt_of_le hc1 with he | hlt
          · exact absurd hc3 (he ▸ h)
          · omega
      · refine hv.trans ?_
        simp only [countTrue]
        rw [if_neg h]
        omega


theorem removeLoop_spec (fuel : Nat) : ∀ p s,
    (removeLoop fuel p s).aggFile = s.aggFile ∧
    (removeLoop fuel p s).log = s.log ∧
    (∀ j, (removeLoop fuel p s).slot j =
      if p ≤ j ∧ j < p + fuel then false else s.slot j) ∧
    (∀ j, (removeLoop fuel p s).bitFile j =
      if p ≤ j ∧ j < p + fuel ∧ s.slot j = true then false else s.bitFile j) := by
  induction fuel with
  | zero =>
    intro p s
    refine ⟨rfl, rfl, ?_, ?_⟩
    · intro j
      show s.slot j = _
      rw [if_neg (by rintro ⟨h1, h2⟩; omega)]
    · intro j
      show s.bitFile j = _
      rw [if_neg (by rintro ⟨h1, h2, -⟩; omega)]
  | succ fuel ih =>
    intro p s
    simp only [removeLoop]
    by_cases h : s.slot p = true
    · rw [if_pos h]
      obtain ⟨ha, hl, hsl, hb⟩ := ih (p + 1)
        { s with bitFile := Function.update s.bitFile p false,
                 slot := Function.update s.slot p false, live := s.live - 2 }
      refine ⟨ha, hl, ?_, ?_⟩
      · intro j
        refine (hsl j).trans ?_
        show (if p + 1 ≤ j ∧ j < p + 1 + fuel then false
              else Function.update s.slot p false j) = _
        simp only [Function.update_apply]
        by_cases hj : j = p
        · subst hj
          rw [if_neg (by rintro ⟨h1, -⟩; omega), if_pos rfl,
              if_pos ⟨Nat.le_refl j, by omega⟩]
        · rw [if_neg hj]
          by_cases h1 : p + 1 ≤ j ∧ j < p + 1 + fuel
          · rw [if_pos h1, if_pos ⟨by omega, by omega⟩]
          · rw [if_neg h1, if_neg]
            rintro ⟨hc1, hc2⟩
            exact h1 ⟨by omega, by omega⟩
      · intro j
        refine (hb j).trans ?_
        show (if p + 1 ≤ j ∧ j < p + 1 + fuel ∧ Function.update s.slot p false j = true
              then false else Function.update s.bitFile p false j) = _
        simp only [Function.update_apply]
        by_cases hj : j = p
        · subst hj
          rw [if_neg (by rintro ⟨h1, -, -⟩; omega), if_pos rfl,
              if_pos ⟨Nat.le_refl j, by omega, h⟩]
        · rw [if_neg hj, if_neg hj]
          by_cases h1 : p + 1 ≤ j ∧ j < p + 1 + fuel ∧ s.slot j = true
          · rw [if_pos h1, if_pos ⟨by omega, by omega, h1.2.2⟩]
          · rw [if_neg h1, if_neg]
            rintro ⟨hc1, hc2, hc3⟩
            exact h1 ⟨by omega, by omega, hc3⟩
    · rw [if_neg h]
      obtain ⟨ha, hl, hsl, hb⟩ := ih (p + 1) s
      refine ⟨ha, hl, ?_, ?_⟩
      · intro j
        refine (hsl j).trans ?_
        have h' : s.slot p = false := by revert h; cases s.slot p <;> simp
        by_cases h1 : p + 1 ≤ j ∧ j < p + 1 + fuel
        · rw [if_pos h1, if_pos ⟨by omega, by omega⟩]
        · rw [if_neg h1]
          by_cases h2 : p ≤ j ∧ j < p + (fuel + 1)
          · rw [if_pos h2]
            have hjp : j = p := by omega
            rw [hjp, h']
          · rw [if_neg h2]
      · intro j
        refine (hb j).trans ?_
        by_cases h1 : p + 1 ≤ j ∧ j < p + 1 + fuel ∧ s.slot j = true
        · rw [if_pos h1, if_pos ⟨by omega, by omega, h1.2.2⟩]
        · rw [if_neg h1, if_neg]
          rintro ⟨hc1, hc2, hc3⟩
          refine h1 ⟨?_, by omega, hc3⟩
          rcases Nat.eq_or_lt_of_le hc1 with he | hlt
          · exact absurd hc3 (he ▸ h)
          · omega

theorem removeLoop_id (fuel : Nat) : ∀ p s,
    (∀ j, p ≤ j → j < p + fuel → s.slot j = false) → removeLoop fuel p s = s := by
  induction fuel with
  | zero => intro p s _; rfl
  | succ fuel ih =>
    intro p s h
    simp only [removeLoop]
    rw [if_neg (by simp [h p (Nat.le_refl p) (by omega)])]
    exact ih (p + 1) s fun j h1 h2 => h j (by omega) (by omega)


theorem countTrue_decide_lt : ∀ i, i ≤ 32 →
    countTrue 0 32 (fun j => decide (j < i)) = i := by decide

/-- Rolling back from the loop state at index `i` (slots and files
filled exactly below `i`, two live objects per filled slot) removes
every published file and frees every live object. -/
theorem errCleanup_clean (i : Nat) (s : SysfsState) (hi : i ≤ 32)
    (hb : ∀ j, s.bitFile j = decide (j < i))
    (hsl : ∀ j, s.slot j = decide (j < i))
    (hv : s.live = 2 * i) : fileClean (errCleanup s) := by
  obtain ⟨ha', hs', hl', hb', hv'⟩ := errCleanupLoop_spec 32 0 s
  have hslot : s.slot = fun j => decide (j < i) := funext hsl
  refine ⟨rfl, ?_, ?_⟩
  · intro j hj
    show (errCleanupLoop 32 0 s).bitFile j = false
    rw [hb' j]
    by_cases hcase : j < i
    · rw [if_pos ⟨Nat.zero_le j, by omega, by rw [hsl j]; simpa⟩]
    · rw [if_neg (by rintro ⟨-, -, hc⟩; rw [hsl j] at hc; simp at hc; omega),
        hb j]
      simp only [decide_eq_false_iff_not]
      exact hcase
  · show (errCleanupLoop 32 0 s).live = 0
    rw [hv', hslot, countTrue_decide_lt i hi, hv]
    omega

/-- Invariant preservation and rollback for the publish loop: entered
at index `i` with the stage invariant, it either completes all 32 bits
or fails and leaves no file published and no object live. -/
theorem createLoop_spec (f : FailSpec) (fuel : Nat) : ∀ i s, i + fuel = 32 →
    stageInv i s →
    ((createLoop f fuel i s).1 ≠ 0 → fileClean (createLoop f fuel i s).2) ∧
    ((createLoop f fuel i s).1 = 0 → stageInv 32 (createLoop f fuel i s).2) := by
  induction fuel with
  | zero =>
    intro i s hif hst
    have : i = 32 := by omega
    subst this
    exact ⟨fun hne => absurd rfl hne, fun _ => hst⟩
  | succ fuel ih =>
    intro i s hif hst
    obtain ⟨ha, hb, hsl, hv⟩ := hst
    have hi32 : i ≤ 32 := by omega
    simp only [createLoop]
    by_cases hkz : f.kzallocFail i = true
    · rw [if_pos hkz]
      refine ⟨fun _ => ?_, fun h0 => by simp at h0⟩
      exact errCleanup_clean i s hi32 hb hsl hv
    · rw [if_neg hkz]
      by_cases hks : f.kstrdupFail i = true
      · rw [if_pos hks]
        refine ⟨fun _ => ?_, fun h0 => by simp at h0⟩
        refine errCleanup_clean i _ hi32 hb ?_ ?_
        · intro j
          show Function.update (Function.update s.slot i true) i false j = _
          simp only [Function.update_apply]
          by_cases hj : j = i
          · subst hj
            rw [if_pos rfl]
            simp
          · rw [if_neg hj, if_neg hj, hsl j]
        · show s.live + 1 - 1 = 2 * i
          omega
      · rw [if_neg hks]
        by_cases hcr : f.createErr i ≠ 0
        · rw [if_pos hcr]
          refine ⟨fun _ => ?_, fun h0 => absurd h0 hcr⟩
          refine errCleanup_clean i _ hi32 hb ?_ ?_
          · intro j
            show Function.update (Function.update s.slot i true) i false j = _
            simp only [Function.update_apply]
            by_cases hj : j = i
            · subst hj
              rw [if_pos rfl]
              simp
            · rw [if_neg hj, if_neg hj, hsl j]
          · show s.live + 1 + 1 - 2 = 2 * i
            omega
        · rw [if_neg hcr]
          refine ih (i + 1) _ (by omega) ?_
          refine ⟨ha, ?_, ?_, ?_⟩
          · intro j
            show Function.update s.bitFile i true j = _
            simp only [Function.update_apply]
            by_cases hj : j = i
            · subst hj
              rw [if_pos rfl]
              simp
            · rw [if_neg hj, hb j]
              exact decide_eq_decide.mpr (by omega)
          · intro j
            show Function.update s.slot i true j = _
            simp only [Function.update_apply]
            by_cases hj : j = i
            · subst hj
              rw [if_pos rfl]
              simp
            · rw [if_neg hj, hsl j]
              exact decide_eq_decide.mpr (by omega)
          · show s.live + 1 + 1 = 2 * (i + 1)
            omega


/-- Publishing from a clean surface: any failure leaves no file
published and no heap object live. -/
theorem createFiles_fail (f : FailSpec) (s : SysfsState)
    (h1 : s.aggFile = false) (h2 : ∀ j, s.bitFile j = false)
    (h3 : ∀ j, s.slot j = false) (h4 : s.live = 0)
    (hne : (create_module_sysfs_files f s).1 ≠ 0) :
    fileClean (create_module_sysfs_files f s).2 := by
  unfold create_module_sysfs_files at hne ⊢
  by_cases hagg : f.aggErr ≠ 0
  · rw [if_pos hagg]
    exact ⟨h1, fun j _ => h2 j, h4⟩
  · rw [if_neg hagg] at hne ⊢
    have hst : stageInv 0
        { s with aggFile := true, log := s.log ++ [Event.mkFile "module_bits"] } := by
      refine ⟨rfl, fun j => ?_, fun j => ?_, ?_⟩
      · show s.bitFile j = decide (j < 0)
        rw [h2 j]
        simp
      · show s.slot j = decide (j < 0)
        rw [h3 j]
        simp
      · show s.live = 2 * 0
        omega
    exact (createLoop_spec f 32 0 _ rfl hst).1 hne

/-- The remove path always clears the singleton, drvdata present or
not. -/
theorem remove_hw_detector_none (g : GlobalState) :
    (hw_module_detector_remove g).2.hw_detector = none := by
  cases hg : g.drvdata <;> simp [hw_module_detector_remove, hg]

/-- Outcome analysis of a probe from the detached initial state:
either it succeeds and installs the snapshot singleton, or it fails
with no singleton, no class, no device and no published attribute. -/
theorem probe_dichotomy (e : ProbeEnv) (reg : Nat → Nat) :
    ((hw_module_detector_probe e reg initState).1 = 0 ∧
      (hw_module_detector_probe e reg initState).2.hw_detector =
        some ⟨reg 0 % 2 ^ 32⟩) ∨
    ((hw_module_detector_probe e reg initState).1 ≠ 0 ∧
      (hw_module_detector_probe e reg initState).2.hw_detector = none ∧
      (hw_module_detector_probe e reg initState).2.classLive = false ∧
      (hw_module_detector_probe e reg initState).2.deviceLive = false ∧
      fileClean (hw_module_detector_probe e reg initState).2.sysfs) := by
  simp only [hw_module_detector_probe]
  split
  · exact Or.inr ⟨by simp, rfl, rfl, rfl, rfl, fun j _ => rfl, rfl⟩
  · split
    · exact Or.inr ⟨by simp, rfl, rfl, rfl, rfl, fun j _ => rfl, rfl⟩
    · split
      · next h3 =>
        exact Or.inr ⟨by simpa using h3, rfl, rfl, rfl, rfl, fun j _ => rfl, rfl⟩
      · split
        · next h4 =>
          exact Or.inr ⟨by simpa using h4, rfl, rfl, rfl, rfl, fun j _ => rfl, rfl⟩
        · split
          · next h5 =>
            exact Or.inr ⟨by simpa using h5, rfl, rfl, rfl, rfl, fun j _ => rfl, rfl⟩
          · split
            · next h6 =>
              refine Or.inr ⟨by simpa using h6, rfl, rfl, rfl, ?_⟩
              exact createFiles_fail e.files _ rfl (fun _ => rfl) (fun _ => rfl) rfl h6
            · exact Or.inl ⟨rfl, rfl⟩


theorem hexDigits_length : ∀ d n, (hexDigits d n).length = d := by
  intro d
  induction d with
  | zero => intro n; rfl
  | succ d ih =>
    intro n
    show (hexDigits d (n / 16) ++ [hexChar (n % 16)]).length = d + 1
    rw [List.length_append, ih]
    rfl

theorem hexCharVal_hexChar : ∀ m, m < 16 → hexCharVal (hexChar m) = m := by decide

theorem hexChar_mem : ∀ m, m < 16 → hexChar m ∈ "0123456789abcdef".data := by decide

/-- Round trip: decoding the `d` rendered digits recovers the value
modulo `16 ^ d`. -/
theorem hexDigits_val : ∀ d n,
    (hexDigits d n).foldl (fun a c => 16 * a + hexCharVal c) 0 = n % 16 ^ d := by
  intro d
  induction d with
  | zero => intro n; simp [hexDigits, Nat.mod_one]
  | succ d ih =>
    intro n
    show ((hexDigits d (n / 16) ++ [hexChar (n % 16)]).foldl
      (fun a c => 16 * a + hexCharVal c) 0) = n % 16 ^ (d + 1)
    rw [List.foldl_append, ih, pow_succ, Nat.mul_comm (16 ^ d) 16, Nat.mod_mul]
    show 16 * (n / 16 % 16 ^ d) + hexCharVal (hexChar (n % 16)) = _
    rw [hexCharVal_hexChar (n % 16) (Nat.mod_lt n (by omega))]
    omega

theorem hexDigits_subset : ∀ d n c, c ∈ hexDigits d n →
    c ∈ "0123456789abcdef".data := by
  intro d
  induction d with
  | zero => intro n c hc; simp [hexDigits] at hc
  | succ d ih =>
    intro n c hc
    rcases List.mem_append.mp hc with h | h
    · exact ih (n / 16) c h
    · rw [List.mem_singleton.mp h]
      exact hexChar_mem (n % 16) (Nat.mod_lt n (by omega))

/-- For each valid bit the generated name round-trips through the
name parser of the read handler. -/
theorem name_parse : ∀ i, i < 32 → kstrtouint ((bitName i).drop 7) = some i := by
  decide

/-- The remove loop on [0,32): every slot in range cleared, files of
present slots removed, everything else untouched. -/
theorem removeFiles_fields (s : SysfsState) :
    (remove_module_sysfs_files s).aggFile = false ∧
    (remove_module_sysfs_files s).log = s.log ∧
    (∀ j, (remove_module_sysfs_files s).slot j =
      if j < 32 then false else s.slot j) ∧
    (∀ j, (remove_module_sysfs_files s).bitFile j =
      if j < 32 ∧ s.slot j = true then false else s.bitFile j) := by
  obtain ⟨ha, hl, hsl, hb⟩ := removeLoop_spec 32 0 s
  refine ⟨rfl, hl, fun j => ?_, fun j => ?_⟩
  · refine (hsl j).trans ?_
    by_cases hj : j < 32
    · rw [if_pos ⟨Nat.zero_le j, by omega⟩, if_pos hj]
    · rw [if_neg (by rintro ⟨-, h⟩; omega), if_neg hj]
  · refine (hb j).trans ?_
    by_cases hj : j < 32 ∧ s.slot j = true
    · rw [if_pos ⟨Nat.zero_le j, by omega, hj.2⟩, if_pos hj]
    · rw [if_neg (by rintro ⟨-, h1, h2⟩; exact hj ⟨by omega, h2⟩), if_neg hj]

/-- Unpublish is idempotent: a second run finds every slot empty and
changes nothing. -/
theorem removeFiles_idem (s : SysfsState) :
    remove_module_sysfs_files (remove_module_sysfs_files s) =
      remove_module_sysfs_files s := by
  have hid := removeLoop_id 32 0 (remove_module_sysfs_files s) ?_
  · show ({ removeLoop 32 0 (remove_module_sysfs_files s) with aggFile := false }
      : SysfsState) = _
    rw [hid]
    exact rfl
  · intro j h1 h2
    refine ((removeFiles_fields s).2.2.1 j).trans ?_
    rw [if_pos (by omega)]


/-- With no injected failure the publish loop succeeds and appends one
`mkFile` event per bit, in ascending order. -/
theorem createLoop_noFail (fuel : Nat) : ∀ i s,
    (createLoop noFail fuel i s).1 = 0 ∧
    (createLoop noFail fuel i s).2.log =
      s.log ++ (List.range' i fuel).map fun k => Event.mkFile (bitName k) := by
  induction fuel with
  | zero =>
    intro i s
    exact ⟨rfl, by simp [createLoop, List.range']⟩
  | succ fuel ih =>
    intro i s
    simp only [createLoop]
    rw [if_neg (by simp [noFail]), if_neg (by simp [noFail]),
      if_neg (by simp [noFail])]
    obtain ⟨h1, h2⟩ := ih (i + 1)
      { s with slot := Function.update s.slot i true, live := s.live + 1 + 1,
               bitFile := Function.update s.bitFile i true,
               log := s.log ++ [Event.mkFile (bitName i)] }
    refine ⟨h1, h2.trans ?_⟩
    show (s.log ++ [Event.mkFile (bitName i)]) ++ _ = _
    rw [List.append_assoc]
    congr 1

/-- The sysfs state a fully successful probe ends with is the output
of the publish loop run from the post-read, post-aggregate state. -/
theorem probe_happy_sysfs (reg : Nat → Nat) :
    (hw_module_detector_probe happyEnv reg initState).2.sysfs =
      (createLoop noFail 32 0
        { aggFile := true, bitFile := fun _ => false, slot := fun _ => false,
          live := 0,
          log := [Event.regRead (reg 0 % 2 ^ 32), Event.mkFile "module_bits"] }).2 :=
  rfl

theorem probe_happy_drvdata (reg : Nat → Nat) :
    (hw_module_detector_probe happyEnv reg initState).2.drvdata =
      some ⟨reg 0 % 2 ^ 32⟩ :=
  rfl

theorem probe_happy_log (reg : Nat → Nat) :
    (hw_module_detector_probe happyEnv reg initState).2.sysfs.log =
      happyLog (reg 0) := by
  rw [probe_happy_sysfs, (createLoop_noFail 32 0 _).2]
  simp [happyLog, List.range_eq_range']


/-- C1: if publishing the per-bit attributes fails at any index
(allocation, name duplication, or file creation), then before the
error is returned every attribute published so far in that call is
removed — all per-bit files and the aggregate `module_bits` file — and
every allocated object is freed, so zero attributes remain published
after the failed publish. -/
theorem publish_fail_removes_all_files (f : FailSpec)
    (h : (create_module_sysfs_files f initSysfs).1 ≠ 0) :
    fileClean (create_module_sysfs_files f initSysfs).2 :=
  createFiles_fail f initSysfs rfl (fun _ => rfl) (fun _ => rfl) rfl h

theorem publish_fail_removes_all_files_witness :
    (create_module_sysfs_files kzallocFailAt5 initSysfs).1 ≠ 0 ∧
    fileClean (create_module_sysfs_files kzallocFailAt5 initSysfs).2 :=
  ⟨by decide, publish_fail_removes_all_files kzallocFailAt5 (by decide)⟩

/-- C2: starting detached, the `hw_detector` singleton is non-null iff
the probe returned success; on every failure path the singleton stays
unset and the class, the device and all attributes (files and heap
objects) have been released before the error is returned; a subsequent
remove clears the singleton again. -/
theorem probe_singleton_iff_success (e : ProbeEnv) (reg : Nat → Nat) :
    ((hw_module_detector_probe e reg initState).1 = 0 ↔
      (hw_module_detector_probe e reg initState).2.hw_detector ≠ none) ∧
    ((hw_module_detector_probe e reg initState).1 ≠ 0 →
      (hw_module_detector_probe e reg initState).2.hw_detector = none ∧
      (hw_module_detector_probe e reg initState).2.classLive = false ∧
      (hw_module_detector_probe e reg initState).2.deviceLive = false ∧
      fileClean (hw_module_detector_probe e reg initState).2.sysfs) ∧
    (hw_module_detector_remove
      (hw_module_detector_probe e reg initState).2).2.hw_detector = none := by
  rcases probe_dichotomy e reg with ⟨h0, hd⟩ | ⟨hne, hd, hc, hdev, hf⟩
  · refine ⟨⟨fun _ => ?_, fun _ => h0⟩, fun hcon => absurd h0 hcon,
      remove_hw_detector_none _⟩
    rw [hd]
    simp
  · exact ⟨⟨fun h0 => absurd h0 hne, fun hcon => absurd hd hcon⟩,
      fun _ => ⟨hd, hc, hdev, hf⟩, remove_hw_detector_none _⟩

theorem probe_singleton_iff_success_witness :
    (hw_module_detector_probe classFailEnv (fun _ => 7) initState).1 ≠ 0 ∧
    (hw_module_detector_probe classFailEnv (fun _ => 7) initState).2.hw_detector
      = none ∧
    fileClean (hw_module_detector_probe classFailEnv (fun _ => 7) initState).2.sysfs := by
  have h := (probe_singleton_iff_success classFailEnv (fun _ => 7)).2.1 (by decide)
  exact ⟨by decide, h.1, h.2.2.2⟩

/-- C3 (against the claim): force the publish to fail at bit 1 after
bit 0 was published. After the rollback the error is returned, the
file for bit 0 is gone and all memory is freed, yet
`module_present_attrs[0]` still holds its (dangling) non-NULL pointer:
the slot is not empty, contradicting the claimed invariant. A real
unpublish, by contrast, does clear the slot. -/
theorem rollback_leaves_dangling_slot :
    (create_module_sysfs_files kzallocFailAt1 initSysfs).1 = -12 ∧
    (create_module_sysfs_files kzallocFailAt1 initSysfs).2.bitFile 0 = false ∧
    (create_module_sysfs_files kzallocFailAt1 initSysfs).2.live = 0 ∧
    (create_module_sysfs_files kzallocFailAt1 initSysfs).2.slot 0 = true ∧
    (remove_module_sysfs_files
      (create_module_sysfs_files kzallocFailAt1 initSysfs).2).slot 0 = false := by
  decide

/-- C4: after a successful attach that captured mask `reg 0`, for
every bit below 32 the exported query returns exactly bit `bit` of the
mask: `present(bit) = ((mask >> bit) & 1 == 1)`. -/
theorem present_matches_mask_bits (e : ProbeEnv) (reg : Nat → Nat) (bit : Nat)
    (hs : (hw_module_detector_probe e reg initState).1 = 0)
    (hm : reg 0 < 2 ^ 32) (hb : bit < 32) :
    hw_module_present (hw_module_detector_probe e reg initState).2 bit =
      decide ((reg 0 >>> bit) &&& 1 = 1) := by
  rcases probe_dichotomy e reg with ⟨-, hd⟩ | ⟨hne, -⟩
  · simp only [hw_module_present, hd]
    rw [if_neg (by omega), Nat.mod_eq_of_lt hm, Nat.testBit_to_div_mod,
      Nat.shiftRight_eq_div_pow, Nat.and_one_is_mod]
  · exact absurd hs hne

theorem present_matches_mask_bits_witness :
    (hw_module_detector_probe happyEnv (fun _ => 42) initState).1 = 0 ∧
    (42 : Nat) < 2 ^ 32 ∧ (1 : Nat) < 32 ∧
    hw_module_present (hw_module_detector_probe happyEnv (fun _ => 42) initState).2 1
      = decide (((42 : Nat) >>> 1) &&& 1 = 1) :=
  ⟨by decide, by decide, by decide,
    present_matches_mask_bits happyEnv (fun _ => 42) 1 (by decide) (by decide)
      (by decide)⟩

/-- C5: `present` returns plain `false` — not an error — for every bit
index of 32 or more, and for every bit index whenever no detector is
attached. -/
theorem present_invalid_or_detached (g : GlobalState) (bit : Nat) :
    (32 ≤ bit → hw_module_present g bit = false) ∧
    (g.hw_detector = none → hw_module_present g bit = false) := by
  constructor
  · intro h
    cases hg : g.hw_detector with
    | none => simp [hw_module_present, hg]
    | some d => simp [hw_module_present, hg, h]
  · intro h
    simp [hw_module_present, h]

theorem present_invalid_or_detached_witness :
    hw_module_present attached42 32 = false ∧
    hw_module_present initState 5 = false :=
  ⟨(present_invalid_or_detached attached42 32).1 (by decide),
    (present_invalid_or_detached initState 5).2 rfl⟩

/-- C6: while attached with cached mask `m`, reading `module_bits`
yields exactly `0x` followed by 8 zero-padded lowercase hexadecimal
digits whose value is `m`, then a newline; and the per-bit handler,
recovering `i` by parsing the trailing integer of its own name
`module_<i>`, yields `"1\n"` when bit `i` of `m` is set and `"0\n"`
otherwise. -/
theorem show_handlers_render_mask (g : GlobalState) (m : Nat)
    (hm : m < 2 ^ 32) (hd : g.hw_detector = some ⟨m⟩) :
    module_bits_show g = .ok ("0x" ++ String.mk (hexDigits 8 m) ++ "\n") ∧
    (hexDigits 8 m).length = 8 ∧
    (hexDigits 8 m).foldl (fun a c => 16 * a + hexCharVal c) 0 = m ∧
    (∀ c ∈ hexDigits 8 m, c ∈ "0123456789abcdef".data) ∧
    (∀ i, i < 32 → module_present_show g (bitName i) =
      .ok (if m.testBit i then "1\n" else "0\n")) := by
  refine ⟨?_, hexDigits_length 8 m, ?_, fun c hc => hexDigits_subset 8 m c hc, ?_⟩
  · simp only [module_bits_show, hd, hex8Line]
  · rw [hexDigits_val 8 m, show (16 : Nat) ^ 8 = 2 ^ 32 by norm_num]
    exact Nat.mod_eq_of_lt hm
  · intro i hi
    simp only [module_present_show, hd, name_parse i hi]
    rw [if_neg (by omega : ¬ 32 ≤ i)]
    have hp : hw_module_present g i = m.testBit i := by
      simp only [hw_module_present, hd]
      rw [if_neg (by omega : ¬ 32 ≤ i)]
    rw [hp]

theorem show_handlers_render_mask_witness :
    module_bits_show attached42 = .ok "0x0000002a\n" ∧
    module_present_show attached42 (bitName 1) = .ok "1\n" ∧
    module_present_show attached42 (bitName 0) = .ok "0\n" := by
  have h := show_handlers_render_mask attached42 42 (by decide) rfl
  exact ⟨h.1.trans (congrArg Except.ok (by decide)),
    (h.2.2.2.2 1 (by decide)).trans (congrArg Except.ok (by decide)),
    (h.2.2.2.2 0 (by decide)).trans (congrArg Except.ok (by decide))⟩

/-- C7: a successful probe performs exactly one register read, before
any attribute is published (the event log is the read followed by the
33 file creations); the cached mask equals the value read at attach
time, and two register histories agreeing at attach time produce
identical outcomes — later register changes cannot influence the
snapshot. Detach adds no further reads. -/
theorem single_register_read_before_publish (reg reg' : Nat → Nat)
    (h : reg 0 = reg' 0) :
    hw_module_detector_probe happyEnv reg initState =
      hw_module_detector_probe happyEnv reg' initState ∧
    (hw_module_detector_probe happyEnv reg initState).1 = 0 ∧
    (hw_module_detector_probe happyEnv reg initState).2.sysfs.log =
      happyLog (reg 0) ∧
    hw_get_module_mask (hw_module_detector_probe happyEnv reg initState).2 =
      reg 0 % 2 ^ 32 ∧
    (hw_module_detector_remove
        (hw_module_detector_probe happyEnv reg initState).2).2.sysfs.log =
      happyLog (reg 0) := by
  refine ⟨?_, rfl, probe_happy_log reg, rfl, ?_⟩
  · unfold hw_module_detector_probe
    rw [h]
  · rw [show (hw_module_detector_remove
        (hw_module_detector_probe happyEnv reg initState).2).2.sysfs =
      remove_module_sysfs_files
        (hw_module_detector_probe happyEnv reg initState).2.sysfs from rfl]
    exact ((removeFiles_fields _).2.1).trans (probe_happy_log reg)

theorem single_register_read_before_publish_witness :
    (hw_module_detector_probe happyEnv (fun _ => 42) initState).2.sysfs.log =
      happyLog 42 ∧
    hw_get_module_mask
        (hw_module_detector_probe happyEnv (fun _ => 42) initState).2 =
      42 % 2 ^ 32 :=
  ⟨(single_register_read_before_publish (fun _ => 42) (fun _ => 42) rfl).2.2.1,
    (single_register_read_before_publish (fun _ => 42) (fun _ => 42) rfl).2.2.2.1⟩

/-- C8: after the remove path completes the singleton is cleared, so
every `present` query returns false and the mask query returns 0. -/
theorem remove_clears_singleton_and_queries (g : GlobalState) :
    (hw_module_detector_remove g).2.hw_detector = none ∧
    (∀ bit, hw_module_present (hw_module_detector_remove g).2 bit = false) ∧
    hw_get_module_mask (hw_module_detector_remove g).2 = 0 := by
  refine ⟨remove_hw_detector_none g, fun bit => ?_, ?_⟩
  · simp [hw_module_present, remove_hw_detector_none g]
  · simp [hw_get_module_mask, remove_hw_detector_none g]

/-- C9: unpublish removes exactly the slots that are present (clearing
them) and their files, touches nothing out of range, and is
idempotent; likewise running the remove path twice in a row is safe,
the second run changing nothing. -/
theorem unpublish_only_removes_present_slots :
    (∀ s j, j < 32 → (remove_module_sysfs_files s).slot j = false) ∧
    (∀ s j, j < 32 → (remove_module_sysfs_files s).bitFile j =
      if s.slot j = true then false else s.bitFile j) ∧
    (∀ s j, 32 ≤ j → (remove_module_sysfs_files s).slot j = s.slot j ∧
      (remove_module_sysfs_files s).bitFile j = s.bitFile j) ∧
    (∀ s, remove_module_sysfs_files (remove_module_sysfs_files s) =
      remove_module_sysfs_files s) ∧
    (∀ g, hw_module_detector_remove (hw_module_detector_remove g).2 =
      (0, (hw_module_detector_remove g).2)) := by
  refine ⟨fun s j hj => ?_, fun s j hj => ?_, fun s j hj => ⟨?_, ?_⟩,
    removeFiles_idem, fun g => ?_⟩
  · exact ((removeFiles_fields s).2.2.1 j).trans (if_pos hj)
  · refine ((removeFiles_fields s).2.2.2 j).trans ?_
    by_cases hs : s.slot j = true
    · rw [if_pos ⟨hj, hs⟩, if_pos hs]
    · rw [if_neg (fun hc => hs hc.2), if_neg hs]
  · exact ((removeFiles_fields s).2.2.1 j).trans (if_neg (by omega))
  · exact ((removeFiles_fields s).2.2.2 j).trans
      (if_neg (by rintro ⟨h1, -⟩; omega))
  · cases hg : g.drvdata with
    | none => simp [hw_module_detector_remove, hg]
    | some d => simp [hw_module_detector_remove, hg, removeFiles_idem]

theorem unpublish_only_removes_present_slots_witness :
    (remove_module_sysfs_files
      (create_module_sysfs_files noFail initSysfs).2).slot 3 = false ∧
    remove_module_sysfs_files (remove_module_sysfs_files
        (create_module_sysfs_files noFail initSysfs).2) =
      remove_module_sysfs_files (create_module_sysfs_files noFail initSysfs).2 :=
  ⟨unpublish_only_removes_present_slots.1 _ 3 (by decide),
    unpublish_only_removes_present_slots.2.2.2.1 _⟩

/-- C10: when no detector is attached neither show handler reports
stale content — both return `-EINVAL`; and the per-bit handler also
returns `-EINVAL` when the trailing integer of the attribute name does
not parse or is 32 or more. -/
theorem show_handlers_error_when_detached :
    (∀ g, g.hw_detector = none →
      module_bits_show g = .error (-22) ∧
      ∀ nm, module_present_show g nm = .error (-22)) ∧
    (∀ g nm, kstrtouint (nm.drop 7) = none →
      module_present_show g nm = .error (-22)) ∧
    (∀ g nm b, kstrtouint (nm.drop 7) = some b → 32 ≤ b →
      module_present_show g nm = .error (-22)) := by
  refine ⟨fun g h => ⟨?_, fun nm => ?_⟩, fun g nm h => ?_, fun g nm b h hb => ?_⟩
  · simp [module_bits_show, h]
  · simp [module_present_show, h]
  · cases hd : g.hw_detector with
    | none => simp [module_present_show, hd]
    | some d => simp [module_present_show, hd, h]
  · cases hd : g.hw_detector with
    | none => simp [module_present_show, hd]
    | some d => simp [module_present_show, hd, h, hb]

theorem show_handlers_error_when_detached_witness :
    module_bits_show initState = .error (-22) ∧
    module_present_show initState "module_3" = .error (-22) ∧
    module_present_show attached42 "module_xyz" = .error (-22) ∧
    module_present_show attached42 "module_40" = .error (-22) := by
  have h := show_handlers_error_when_detached
  exact ⟨(h.1 initState rfl).1, (h.1 initState rfl).2 _,
    h.2.1 attached42 "module_xyz" (by decide),
    h.2.2 attached42 "module_40" 40 (by decide) (by decide)⟩


end HwRegisters
